import Mathlib

/-!
Shallow embedding of the multi-source retrieval and query-augmentation
pipeline of `web_search.py` (classes `WebSearchTool` and
`SearchEnhancedLLM`).

Modelling conventions:
* Python strings are `List Char`; machine I/O (HTTP responses, HTML
  parsing) is abstracted as explicit outcome values fed to the embedded
  functions, so every network-dependent function is a pure function of
  its outcome argument.
* Python exception behaviour is made explicit with `Except PyExc`.
  The module `web_search.py` never imports `asyncio`, yet uses
  `except asyncio.TimeoutError:` clauses; by Python semantics, when any
  exception is raised in such a `try` body, evaluating that clause
  expression raises `NameError`, which cancels the handler search and
  propagates.  The embedding of those functions therefore maps every
  raised-exception outcome to `Except.error PyExc.nameError`.
* `dict.get(k, d)` fields are modelled with `Option` plus `Option.getD`.
-/

namespace WebSearch

/-- Python exceptions relevant to the embedded control flow. -/
inductive PyExc where
  | nameError
  | timeoutError
  | clientError
  | jsonError
deriving DecidableEq, Repr

/-- ASCII whitespace recognised by Python `str.split()` (no-argument form). -/
def isPySpace (c : Char) : Bool :=
  c = ' ' || c = '\t' || c = '\n' || c = '\r' || c = '\x0b' || c = '\x0c'

/-- Python `str.lower` restricted to the character ranges that occur in the
program's data: ASCII letters and Russian Cyrillic (`А`–`Я` and `Ё`). -/
def pyLowerChar (c : Char) : Char :=
  if 65 ≤ c.toNat ∧ c.toNat ≤ 90 then Char.ofNat (c.toNat + 32)
  else if 0x410 ≤ c.toNat ∧ c.toNat ≤ 0x42F then Char.ofNat (c.toNat + 32)
  else if c.toNat = 0x401 then Char.ofNat 0x451
  else c

/-- Python `str.lower` over a whole string. -/
def pyLower (s : List Char) : List Char := s.map pyLowerChar

/-- Python `str.upper` restricted to ASCII (used only on `"ru"`/`"en"`). -/
def pyUpperChar (c : Char) : Char :=
  if 97 ≤ c.toNat ∧ c.toNat ≤ 122 then Char.ofNat (c.toNat - 32) else c

/-- Python `str.upper` over a whole string. -/
def pyUpper (s : List Char) : List Char := s.map pyUpperChar

/-- Accumulator-style worker for `pySplit`. -/
def pySplitAux : List Char → List Char → List (List Char)
  | [], acc => if acc = [] then [] else [acc.reverse]
  | c :: cs, acc =>
    if isPySpace c then
      if acc = [] then pySplitAux cs [] else acc.reverse :: pySplitAux cs []
    else pySplitAux cs (c :: acc)

/-- Python `str.split()` with no separator: split on runs of whitespace,
discarding empty fields. -/
def pySplit (s : List Char) : List (List Char) := pySplitAux s []

/-- Python `str.split(sep)` for a one-character separator (keeps empty
fields, always returns at least one field). -/
def splitOnChar (sep : Char) : List Char → List (List Char)
  | [] => [[]]
  | c :: cs =>
    if c = sep then [] :: splitOnChar sep cs
    else
      match splitOnChar sep cs with
      | [] => [[c]]
      | h :: t => (c :: h) :: t

/-- One search result, mirroring the result dictionaries built in
`web_search.py` (`title`/`snippet`/`url`/`source`, with the optional
`full_content` key added by `search_with_content`). -/
structure SearchResult where
  title : List Char
  snippet : List Char
  url : List Char
  source : List Char
  fullContent : Option (List Char) := none
deriving DecidableEq, Repr

/-- One entry of the instant-answer payload's `RelatedTopics` list.
`hasText` models `isinstance(topic, dict) and 'Text' in topic`;
`text`/`firstURL` model `topic.get('Text', '')`/`topic.get('FirstURL', '')`. -/
structure DdgTopic where
  hasText : Bool
  text : List Char
  firstURL : List Char
deriving DecidableEq, Repr

/-- Parsed JSON payload of the DuckDuckGo Instant Answer API, with
`Option` marking keys that may be absent from the response dictionary. -/
structure DdgPayload where
  abstractText : Option (List Char) := none
  heading : Option (List Char) := none
  abstractURL : Option (List Char) := none
  abstractSource : Option (List Char) := none
  relatedTopics : List DdgTopic := []
deriving DecidableEq, Repr

/-- Outcome of the single HTTP GET performed by `search_duckduckgo`:
either a response with a status code and (for status 200) a parsed JSON
payload, or an exception raised inside the `try` body (network error,
timeout, malformed JSON). -/
inductive DdgOutcome where
  | resp (status : Nat) (payload : DdgPayload)
  | raised (e : PyExc)
deriving DecidableEq, Repr

/-- `topic.get('FirstURL', '').split('/')[-1].replace('_', ' ')`: the title
synthesized for a related-topic result. -/
def topicTitle (firstURL : List Char) : List Char :=
  (((splitOnChar '/' firstURL).getLast?).getD []).map
    (fun c => if c = '_' then ' ' else c)

/-- The 200-status body of `search_duckduckgo` (lines 92–115): one result
from the abstract answer if `AbstractText` is truthy, then up to
`max_results - len(results)` related topics that carry a `Text` key,
finally truncated to `max_results`. -/
def ddgParse (max_results : Nat) (data : DdgPayload) : List SearchResult :=
  let results : List SearchResult :=
    match data.abstractText with
    | some t =>
      if t ≠ [] then
        [{ title := data.heading.getD ("DuckDuckGo Answer".data),
           snippet := t,
           url := data.abstractURL.getD [],
           source := data.abstractSource.getD ("DuckDuckGo".data) }]
      else []
    | none => []
  let more : List SearchResult :=
    ((data.relatedTopics.take (max_results - results.length)).filter
        (fun tp => tp.hasText)).map
      (fun tp =>
        { title := topicTitle tp.firstURL,
          snippet := tp.text,
          url := tp.firstURL,
          source := "DuckDuckGo".data })
  (results ++ more).take max_results

/-- `WebSearchTool.search_duckduckgo` (lines 51–122).  Status 202 and other
non-200 statuses return an empty list; a raised exception hits the
`except asyncio.TimeoutError:` clause whose evaluation raises `NameError`
(the module never imports `asyncio`), so it propagates. -/
def search_duckduckgo (max_results : Nat) (out : DdgOutcome) :
    Except PyExc (List SearchResult) :=
  match out with
  | .raised _ => .error .nameError
  | .resp status payload =>
    if status = 202 then .ok []
    else if status ≠ 200 then .ok []
    else .ok (ddgParse max_results payload)

/-- Outcome of `search_duckduckgo_html`'s HTTP GET and HTML parse: the
HTML scraping itself is abstracted as the list of results it yields. -/
inductive HtmlOutcome where
  | resp (status : Nat) (results : List SearchResult)
  | raised (e : PyExc)
deriving DecidableEq, Repr

/-- `WebSearchTool.search_duckduckgo_html` (lines 124–252).  Its single
`except Exception` clause catches every raised exception and returns `[]`;
non-200 statuses also return `[]`. -/
def search_duckduckgo_html (out : HtmlOutcome) :
    Except PyExc (List SearchResult) :=
  match out with
  | .raised _ => .ok []
  | .resp status results => if status ≠ 200 then .ok [] else .ok results

/-- Outcome of `search_wikipedia`'s two sequential MediaWiki calls:
a raised exception, a non-200 status on either call, an empty search hit
list, a page id missing from the content response, or a found article. -/
inductive WikiOutcome where
  | raised (e : PyExc)
  | badStatus (status : Nat)
  | noResults
  | pageMissing (title : List Char)
  | found (title : List Char) (extract : List Char)
deriving DecidableEq, Repr

/-- URL built for a Wikipedia result:
`f"https://{lang}.wikipedia.org/wiki/{title.replace(' ', '_')}"`. -/
def wikiUrl (lang title : List Char) : List Char :=
  "https://".data ++ lang ++ ".wikipedia.org/wiki/".data ++
    title.map (fun c => if c = ' ' then '_' else c)

/-- `WebSearchTool.search_wikipedia` (lines 254–338).  Failure outcomes
other than raised exceptions yield `none`; a raised exception hits the
unresolvable `except asyncio.TimeoutError:` clause and propagates as
`NameError`.  The snippet is the extract truncated to 500 characters with
an ellipsis appended when truncation happened. -/
def search_wikipedia (lang : List Char) (out : WikiOutcome) :
    Except PyExc (Option SearchResult) :=
  match out with
  | .raised _ => .error .nameError
  | .badStatus _ => .ok none
  | .noResults => .ok none
  | .pageMissing _ => .ok none
  | .found title extract =>
    .ok (some
      { title := title,
        snippet :=
          if extract.length > 500 then extract.take 500 ++ "...".data
          else extract,
        url := wikiUrl lang title,
        source := "Wikipedia (".data ++ pyUpper lang ++ ")".data })

/-- Wikipedia language locales used by the aggregator. -/
inductive Locale where
  | ru
  | en
deriving DecidableEq, Repr

/-- Tags recording which source client the aggregator invoked, in order. -/
inductive CallTag where
  | ddg
  | html
  | wiki (l : Locale)
deriving DecidableEq, Repr

/-- The language heuristic of `WebSearchTool.search` (line 469):
`any(ord('а') <= ord(char.lower()) <= ord('я') for char in query)`. -/
def isRussian (query : List Char) : Bool :=
  query.any (fun c => decide ('а' ≤ pyLowerChar c ∧ pyLowerChar c ≤ 'я'))

/-- The Wikipedia stage of `WebSearchTool.search` (lines 467–487), given
the results `base` accumulated by the earlier sources.  Returns the list
of encyclopedia calls it performs together with the final truncated
result list (or the propagated exception).  Mirrors the source: the stage
runs only when `include_wikipedia` holds and `base` is still under
`max_results`; a Cyrillic query tries `ru` first and `en` only if the
count is still short, a non-Cyrillic query tries `en` only; non-`None`
results are appended; the final list is truncated to `max_results`. -/
def wikiStage (query : List Char) (max_results : Nat)
    (include_wikipedia : Bool) (base : List SearchResult)
    (ruOut enOut : WikiOutcome) :
    List CallTag × Except PyExc (List SearchResult) :=
  if include_wikipedia ∧ base.length < max_results then
    if isRussian query then
      match search_wikipedia ("ru".data) ruOut with
      | .error e => ([.wiki .ru], .error e)
      | .ok ru =>
        let afterRu := base ++ ru.toList
        if afterRu.length < max_results then
          match search_wikipedia ("en".data) enOut with
          | .error e => ([.wiki .ru, .wiki .en], .error e)
          | .ok en => ([.wiki .ru, .wiki .en],
              .ok ((afterRu ++ en.toList).take max_results))
        else ([.wiki .ru], .ok (afterRu.take max_results))
    else
      match search_wikipedia ("en".data) enOut with
      | .error e => ([.wiki .en], .error e)
      | .ok en => ([.wiki .en], .ok ((base ++ en.toList).take max_results))
  else ([], .ok (base.take max_results))

/-- `WebSearchTool.search` (lines 437–490) with its call trace.  Step 1
calls the instant-answer client; step 2 calls the HTML client only when
step 1 contributed zero results; step 3 is `wikiStage`; the result is
truncated to `max_results`.  Exceptions raised by a client propagate. -/
def searchT (query : List Char) (max_results : Nat)
    (include_wikipedia : Bool) (ddgOut : DdgOutcome) (htmlOut : HtmlOutcome)
    (ruOut enOut : WikiOutcome) :
    List CallTag × Except PyExc (List SearchResult) :=
  match search_duckduckgo max_results ddgOut with
  | .error e => ([.ddg], .error e)
  | .ok ddg =>
    if ddg.length = 0 then
      match search_duckduckgo_html htmlOut with
      | .error e => ([.ddg, .html], .error e)
      | .ok hs =>
        let s := wikiStage query max_results include_wikipedia (ddg ++ hs)
          ruOut enOut
        ([.ddg, .html] ++ s.1, s.2)
    else
      let s := wikiStage query max_results include_wikipedia ddg ruOut enOut
      ([CallTag.ddg] ++ s.1, s.2)

/-- The ResultSet component of `WebSearchTool.search`. -/
def search (query : List Char) (max_results : Nat)
    (include_wikipedia : Bool) (ddgOut : DdgOutcome) (htmlOut : HtmlOutcome)
    (ruOut enOut : WikiOutcome) : Except PyExc (List SearchResult) :=
  (searchT query max_results include_wikipedia ddgOut htmlOut ruOut enOut).2

/-- The encyclopedia locales consulted, in call order. -/
def wikiLocales (calls : List CallTag) : List Locale :=
  calls.filterMap (fun t => match t with | .wiki l => some l | _ => none)

/-- Outcome of the HTTP GET and HTML text extraction inside
`fetch_url_content`: the BeautifulSoup cleanup is abstracted as the clean
text it produces before truncation. -/
inductive FetchOutcome where
  | raised (e : PyExc)
  | badStatus (status : Nat)
  | success (cleanText : List Char)
deriving DecidableEq, Repr

/-- `WebSearchTool.fetch_url_content` (lines 360–435).  Non-200 statuses
yield `None`; success yields the clean text truncated to `max_length`;
a raised exception hits the unresolvable `except asyncio.TimeoutError:`
clause and propagates as `NameError`. -/
def fetch_url_content (max_length : Nat) (out : FetchOutcome) :
    Except PyExc (Option (List Char)) :=
  match out with
  | .raised _ => .error .nameError
  | .badStatus _ => .ok none
  | .success t => .ok (some (t.take max_length))

/-- The per-result body of the enrichment loop in
`WebSearchTool.search_with_content` (lines 520–537): results with an
empty url or a `wikipedia.org` url are kept unchanged; otherwise the
content is fetched with `max_length=1500` and, when truthy, stored as
`full_content` while the snippet is overwritten with its first 500
characters plus an ellipsis when longer than 500. -/
def enrich_result (extractor : List Char → FetchOutcome)
    (r : SearchResult) : Except PyExc SearchResult :=
  if r.url = [] ∨ ("wikipedia.org".data <:+: r.url) then .ok r
  else
    match fetch_url_content 1500 (extractor r.url) with
    | .error e => .error e
    | .ok none => .ok r
    | .ok (some c) =>
      if c ≠ [] then
        .ok { r with
          fullContent := some c,
          snippet :=
            if c.length > 500 then c.take 500 ++ "...".data else c }
      else .ok r

/-- The enrichment `for` loop of `search_with_content`: processes results
in order, aborting with the first propagated exception. -/
def enrich_loop (extractor : List Char → FetchOutcome) :
    List SearchResult → Except PyExc (List SearchResult)
  | [] => .ok []
  | r :: rs =>
    match enrich_result extractor r with
    | .error e => .error e
    | .ok r2 =>
      match enrich_loop extractor rs with
      | .error e => .error e
      | .ok rest => .ok (r2 :: rest)

/-- `WebSearchTool.search_with_content` (lines 492–540): a plain `search`
(with `include_wikipedia` left at its default `True`) followed, when
`fetch_content` is set and the results are non-empty, by the enrichment
loop. -/
def search_with_content (query : List Char) (max_results : Nat)
    (fetch_content : Bool) (ddgOut : DdgOutcome) (htmlOut : HtmlOutcome)
    (ruOut enOut : WikiOutcome) (extractor : List Char → FetchOutcome) :
    Except PyExc (List SearchResult) :=
  match search query max_results true ddgOut htmlOut ruOut enOut with
  | .error e => .error e
  | .ok results =>
    if ¬fetch_content ∨ results = [] then .ok results
    else enrich_loop extractor results

/-- Decimal rendering of a count, as Python string interpolation does. -/
def natStr (n : Nat) : List Char := (Nat.repr n).data

/-- The per-result block of `format_search_results` (lines 569–588),
rendered for 1-based index `i`. -/
def resultBlock (i : Nat) (r : SearchResult) : List Char :=
  "═══ Результат #".data ++ natStr i ++ " ═══\n".data ++
  "📌 ".data ++ r.title ++ "\n".data ++
  "🌐 Источник: ".data ++ r.source ++ "\n".data ++
  (if r.url ≠ [] then "🔗 URL: ".data ++ r.url ++ "\n".data else []) ++
  "📄 Описание:\n".data ++ r.snippet ++ "\n".data ++
  (match r.fullContent with
   | some fc =>
     if fc ≠ [] then
       "\n📖 Полный текст (фрагмент):\n".data ++ fc.take 800 ++ "...\n".data
     else []
   | none => []) ++
  "\n".data

/-- The numbered blocks for a result list, mirroring
`enumerate(results, 1)`. -/
def resultBlocks : Nat → List SearchResult → List (List Char)
  | _, [] => []
  | i, r :: rs => resultBlock i r :: resultBlocks (i + 1) rs

/-- `WebSearchTool.format_search_results` (lines 542–592).  An empty
result list yields the fixed no-results sentence; otherwise a header with
the result count and the number of distinct sources, the numbered blocks,
and a closing directive. -/
def format_search_results (results : List SearchResult)
    (query : List Char) : List Char :=
  if results = [] then
    "Поиск по запросу \x27".data ++ query ++ "\x27 не дал результатов.".data
  else
    "🔍 Результаты поиска по запросу \x27".data ++ query ++ "\x27:\n".data ++
    "Найдено: ".data ++ natStr results.length ++ " результатов с ".data ++
    natStr ((results.map (fun r => r.source)).dedup.length) ++
    " источников\n\n".data ++
    (resultBlocks 1 results).flatten ++
    "💡 Используй информацию из этих ".data ++ natStr results.length ++
    " источников для ответа.\n".data

/-- The Russian trigger lexicon of `generate_with_search` (lines 625–650). -/
def search_keywords : List (List Char) :=
  ["что такое".data, "кто такой".data, "кто такая".data,
   "где находится".data, "когда".data,
   "какой".data, "какая".data, "какие".data, "сколько".data,
   "почему".data, "зачем".data,
   "последние новости".data, "актуальная информация".data, "новости".data,
   "последние события".data, "что нового".data, "свежие новости".data,
   "сегодня".data, "вчера".data, "недавно".data, "в этом году".data,
   "в этом месяце".data,
   "поиск".data, "найди".data, "найди информацию".data, "расскажи о".data,
   "информация о".data, "узнай".data, "проверь".data, "погугли".data,
   "кто сейчас".data, "кто является".data, "кто занимает".data,
   "кто возглавляет".data,
   "текущий".data, "сейчас".data, "на данный момент".data,
   "в настоящее время".data, "актуальный".data, "современный".data,
   "факты о".data, "статистика".data, "данные о".data, "цифры".data,
   "победитель".data, "лидер".data, "чемпион".data, "рекорд".data,
   "биография".data, "история".data, "достижения".data, "карьера".data]

/-- The English trigger lexicon of `generate_with_search` (lines 653–658). -/
def english_keywords : List (List Char) :=
  ["what is".data, "who is".data, "where is".data, "when".data, "how".data,
   "latest news".data, "current".data, "today".data, "recent".data,
   "search for".data, "find".data, "tell me about".data,
   "information about".data,
   "who won".data, "winner".data, "champion".data, "latest".data]

/-- The closed question-word set of `generate_with_search`
(lines 672–673). -/
def question_words : List (List Char) :=
  ["кто".data, "что".data, "где".data, "когда".data, "почему".data,
   "как".data, "какой".data,
   "who".data, "what".data, "where".data, "when".data, "why".data,
   "how".data, "which".data]

/-- The retrieval-trigger decision of
`SearchEnhancedLLM.generate_with_search` (lines 624–675), named
`needs_retrieval` after the specification.  `needs_search` is
`auto_search` and a trigger-lexicon hit on the lowercased message; the
additional check fires when the message contains `?`, has fewer than 15
whitespace-delimited words, and its first or second lowercased token is a
question word. -/
def needs_retrieval (auto_search : Bool) (text : List Char) : Bool :=
  let lower := pyLower text
  let kw := search_keywords.any (fun k => decide (k <:+: lower)) ||
    english_keywords.any (fun k => decide (k <:+: lower))
  let ns := auto_search && kw
  if !ns && decide ('?' ∈ text) && decide ((pySplit text).length < 15) &&
      ((pySplit lower).take 2).any (fun w => decide (w ∈ question_words)) then
    true
  else ns

/-- The delegation to the generation backend:
`lm_client.generate_response(user_message, conversation_history,
system_prompt)` recorded as a call descriptor. -/
structure GenCall where
  user_message : List Char
  conversation_history : List (List Char × List Char)
  system_prompt : Option (List Char)
deriving DecidableEq, Repr

/-- The observable behaviour of one `generate_with_search` invocation:
the aggregator call it issued (query, `max_results`, `fetch_content`),
if any, and the final generation-backend call. -/
structure OrchTrace where
  searchCall : Option (List Char × Nat × Bool)
  genCall : GenCall
deriving DecidableEq, Repr

/-- The augmented prompt built by `generate_with_search`
(lines 697–704). -/
def enhanced_message (user_message search_context : List Char) : List Char :=
  "Вопрос пользователя: ".data ++ user_message ++ "\n\n".data ++
  "Актуальная информация из интернета:\n".data ++ search_context ++
  "\n\n".data ++
  "Инструкция: Используй предоставленную актуальную информацию для ответа. Если информация полезна, упомяни источники в конце ответа. Отвечай естественно, не упоминая, что ты искал информацию, просто дай информативный ответ на основе найденных данных.".data

/-- `SearchEnhancedLLM.generate_with_search` (lines 605–720), with the
aggregation result supplied as the value returned by
`search_with_content`.  When the gate fires, the aggregator is called
with `max_results=3, fetch_content=True`; with non-empty results, the
backend receives the augmented prompt; otherwise (and when the gate does
not fire) the backend receives the original message, history and system
prompt. -/
def generate_with_search (user_message : List Char)
    (conversation_history : List (List Char × List Char))
    (system_prompt : Option (List Char)) (auto_search : Bool)
    (searchResults : List SearchResult) : OrchTrace :=
  if needs_retrieval auto_search user_message then
    if searchResults ≠ [] then
      { searchCall := some (user_message, 3, true),
        genCall :=
          { user_message :=
              enhanced_message user_message
                (format_search_results searchResults user_message),
            conversation_history := conversation_history,
            system_prompt := system_prompt } }
    else
      { searchCall := some (user_message, 3, true),
        genCall :=
          { user_message := user_message,
            conversation_history := conversation_history,
            system_prompt := system_prompt } }
  else
    { searchCall := none,
      genCall :=
        { user_message := user_message,
          conversation_history := conversation_history,
          system_prompt := system_prompt } }

/-- The ResultSet decomposition contributed by the Wikipedia stage: either
nothing, a Russian hit, an English hit, or a Russian hit followed by an
English hit (never the other order). -/
def wikiChunk (ruOut enOut : WikiOutcome) (w : List SearchResult) : Prop :=
  w = [] ∨
  (∃ ru, search_wikipedia ("ru".data) ruOut = .ok (some ru) ∧ w = [ru]) ∨
  (∃ en, search_wikipedia ("en".data) enOut = .ok (some en) ∧ w = [en]) ∨
  (∃ ru en, search_wikipedia ("ru".data) ruOut = .ok (some ru) ∧
    search_wikipedia ("en".data) enOut = .ok (some en) ∧ w = [ru, en])

end WebSearch

namespace WebSearch

theorem char_toNat_ofNat {n : Nat} (h : n < 55296) :
    (Char.ofNat n).toNat = n := by
  have hv : n.isValidChar := Or.inl h
  simp only [Char.ofNat, dif_pos hv, Char.ofNatAux, Char.toNat, UInt32.toNat]
  simp

theorem char_le_iff_toNat_le {a b : Char} : a ≤ b ↔ a.toNat ≤ b.toNat := by
  rfl

theorem pyLowerChar_toNat (c : Char) :
    (pyLowerChar c).toNat =
      if 65 ≤ c.toNat ∧ c.toNat ≤ 90 then c.toNat + 32
      else if 0x410 ≤ c.toNat ∧ c.toNat ≤ 0x42F then c.toNat + 32
      else if c.toNat = 0x401 then 0x451
      else c.toNat := by
  unfold pyLowerChar
  split_ifs with h1 h2 h3
  · exact char_toNat_ofNat (by omega)
  · exact char_toNat_ofNat (by omega)
  · exact char_toNat_ofNat (by omega)
  · rfl

theorem wikiStage_ok {q : List Char} {mr : Nat} {iw : Bool}
    {base rs : List SearchResult} {ruOut enOut : WikiOutcome}
    (h : (wikiStage q mr iw base ruOut enOut).2 = .ok rs) :
    ∃ w, wikiChunk ruOut enOut w ∧ rs = (base ++ w).take mr := by
  unfold wikiStage at h
  split_ifs at h with hgate hru
  · cases hr : search_wikipedia ("ru".data) ruOut with
    | error e => rw [hr] at h; cases h
    | ok ru =>
      rw [hr] at h
      simp only at h
      split_ifs at h with hlen
      · cases he : search_wikipedia ("en".data) enOut with
        | error e => rw [he] at h; cases h
        | ok en =>
          rw [he] at h
          cases h
          refine ⟨ru.toList ++ en.toList, ?_, by simp⟩
          cases ru with
          | none =>
            cases en with
            | none => exact Or.inl rfl
            | some x => exact Or.inr (Or.inr (Or.inl ⟨x, he, rfl⟩))
          | some r =>
            cases en with
            | none => exact Or.inr (Or.inl ⟨r, hr, rfl⟩)
            | some x => exact Or.inr (Or.inr (Or.inr ⟨r, x, hr, he, rfl⟩))
      · cases h
        refine ⟨ru.toList, ?_, rfl⟩
        cases ru with
        | none => exact Or.inl rfl
        | some r => exact Or.inr (Or.inl ⟨r, hr, rfl⟩)
  · cases he : search_wikipedia ("en".data) enOut with
    | error e => rw [he] at h; cases h
    | ok en =>
      rw [he] at h
      cases h
      refine ⟨en.toList, ?_, rfl⟩
      cases en with
      | none => exact Or.inl rfl
      | some x => exact Or.inr (Or.inr (Or.inl ⟨x, he, rfl⟩))
  · cases h
    exact ⟨[], Or.inl rfl, by simp⟩

theorem wikiStage_tags {q : List Char} {mr : Nat} {iw : Bool}
    {base : List SearchResult} {ruOut enOut : WikiOutcome} {t : CallTag}
    (h : t ∈ (wikiStage q mr iw base ruOut enOut).1) :
    ∃ l, t = CallTag.wiki l := by
  unfold wikiStage at h
  split_ifs at h <;>
    first
    | (cases hr : search_wikipedia ("ru".data) ruOut <;> rw [hr] at h <;>
        [skip;
         (simp only at h; split_ifs at h with hlen <;>
          [(cases he : search_wikipedia ("en".data) enOut <;> rw [he] at h);
           skip])] <;>
        simp at h <;> rcases h with rfl | rfl <;> exact ⟨_, rfl⟩)
    | (cases he : search_wikipedia ("en".data) enOut <;> rw [he] at h <;>
        simp at h <;> subst h <;> exact ⟨_, rfl⟩)
    | simp at h


theorem searchT_eq {q : List Char} {mr : Nat} {iw : Bool}
    {ddgOut : DdgOutcome} {htmlOut : HtmlOutcome} {ruOut enOut : WikiOutcome}
    {ddg : List SearchResult}
    (hd : search_duckduckgo mr ddgOut = .ok ddg) :
    searchT q mr iw ddgOut htmlOut ruOut enOut =
      if ddg.length = 0 then
        match search_duckduckgo_html htmlOut with
        | .error e => ([CallTag.ddg, .html], .error e)
        | .ok hs =>
          ([CallTag.ddg, .html] ++ (wikiStage q mr iw (ddg ++ hs) ruOut enOut).1,
            (wikiStage q mr iw (ddg ++ hs) ruOut enOut).2)
      else
        ([CallTag.ddg] ++ (wikiStage q mr iw ddg ruOut enOut).1,
          (wikiStage q mr iw ddg ruOut enOut).2) := by
  unfold searchT
  rw [hd]


/-- C4 (status: code_bug, supporting evaluation).  The claim says every
source-client fetch recovers from every HTTP-layer failure by returning
an empty ResultSet (or `None` for the encyclopedia client).  The code
contradicts this: `web_search.py` never imports `asyncio`, so when an
exception (timeout, network error, malformed payload) is raised inside
the `try` body of `search_duckduckgo`, `search_wikipedia` or
`fetch_url_content`, Python's evaluation of the handler clause
`except asyncio.TimeoutError:` raises `NameError`, which propagates to
the caller.  Only `search_duckduckgo_html`, whose sole handler is
`except Exception`, satisfies the claim. -/
theorem c4_fetch_never_raises_violated :
    search_duckduckgo 5 (.raised .timeoutError) = .error .nameError ∧
    search_duckduckgo 5 (.raised .clientError) = .error .nameError ∧
    search_duckduckgo 5 (.raised .jsonError) = .error .nameError ∧
    search_wikipedia ("en".data) (.raised .timeoutError) = .error .nameError ∧
    fetch_url_content 1500 (.raised .timeoutError) = .error .nameError ∧
    search_duckduckgo_html (.raised .timeoutError) = .ok [] :=
  ⟨rfl, rfl, rfl, rfl, rfl, rfl⟩

/-- C5: a 202 ("accepted, no immediate result") status makes the
instant-answer client return an empty ResultSet as a success (never an
error), and the aggregator invokes the HTML-search client exactly when
the instant-answer step contributed zero results. -/
theorem c5_accepted_status_and_html_fallback :
    (∀ (p : DdgPayload) (mr : Nat),
      search_duckduckgo mr (.resp 202 p) = .ok []) ∧
    (∀ (q : List Char) (mr : Nat) (ddgOut : DdgOutcome)
        (htmlOut : HtmlOutcome) (ruOut enOut : WikiOutcome)
        (ddg : List SearchResult),
      search_duckduckgo mr ddgOut = .ok ddg →
      (CallTag.html ∈ (searchT q mr true ddgOut htmlOut ruOut enOut).1 ↔
        ddg = [])) := by
  constructor
  · intro p mr
    simp [search_duckduckgo]
  · intro q mr ddgOut htmlOut ruOut enOut ddg hd
    rw [searchT_eq hd]
    by_cases hz : ddg.length = 0
    · rw [if_pos hz]
      have hddg : ddg = [] := List.length_eq_zero.1 hz
      cases hh : search_duckduckgo_html htmlOut with
      | error e => simp [hddg]
      | ok hs => simp [hddg]
    · rw [if_neg hz]
      constructor
      · intro h
        rcases List.mem_append.1 h with h | h
        · simp at h
        · rcases wikiStage_tags h with ⟨l, hl⟩
          cases hl
      · intro h
        exact absurd (by simp [h]) hz

/-- C5 witness: with a concrete 202 response, the instant-answer step
yields an empty success and the aggregator does call the HTML client. -/
theorem c5_witness :
    search_duckduckgo 3 (.resp 202 {}) = .ok [] ∧
    CallTag.html ∈
      (searchT ("x".data) 3 true (.resp 202 {}) (.resp 200 [])
        .noResults .noResults).1 := by
  refine ⟨rfl, ?_⟩
  exact (c5_accepted_status_and_html_fallback.2 ("x".data) 3 (.resp 202 {})
    (.resp 200 []) .noResults .noResults [] rfl).mpr rfl

/-- C3: the retrieval gate is a pure function of the message text.  It
returns true whenever the lowercased text contains a trigger-lexicon
phrase; it returns true whenever the text contains `?`, has fewer than
15 whitespace-delimited words, and its first or second lowercased token
belongs to the closed question-word set; and it returns false for texts
with no question mark and no trigger phrase. -/
theorem c3_needs_retrieval_characterization :
    ∀ text : List Char,
      ((∃ k ∈ search_keywords ++ english_keywords, k <:+: pyLower text) →
        needs_retrieval true text = true) ∧
      (('?' ∈ text ∧ (pySplit text).length < 15 ∧
          ∃ w ∈ (pySplit (pyLower text)).take 2, w ∈ question_words) →
        needs_retrieval true text = true) ∧
      ((¬ ('?' ∈ text) ∧
          ¬ ∃ k ∈ search_keywords ++ english_keywords, k <:+: pyLower text) →
        needs_retrieval true text = false) := by
  intro text
  refine ⟨?_, ?_, ?_⟩
  · rintro ⟨k, hk, hinf⟩
    have h1 : (search_keywords.any fun k => decide (k <:+: pyLower text)) = true ∨
        (english_keywords.any fun k => decide (k <:+: pyLower text)) = true := by
      rcases List.mem_append.1 hk with h | h
      · exact Or.inl (List.any_eq_true.2 ⟨k, h, decide_eq_true hinf⟩)
      · exact Or.inr (List.any_eq_true.2 ⟨k, h, decide_eq_true hinf⟩)
    rcases h1 with h1 | h1 <;> simp [needs_retrieval, h1]
  · rintro ⟨hq, hlen, w, hw, hwq⟩
    have hany : ((pySplit (pyLower text)).take 2).any
        (fun w => decide (w ∈ question_words)) = true :=
      List.any_eq_true.2 ⟨w, hw, decide_eq_true hwq⟩
    by_cases h1 : (search_keywords.any fun k => decide (k <:+: pyLower text)) = true
    · simp [needs_retrieval, h1]
    · by_cases h2 : (english_keywords.any fun k => decide (k <:+: pyLower text)) = true
      · simp [needs_retrieval, h2]
      · simp only [Bool.not_eq_true] at h1 h2
        simp [needs_retrieval, h1, h2, hq, hlen, hany]
  · rintro ⟨hq, hnk⟩
    have h1 : (search_keywords.any fun k => decide (k <:+: pyLower text)) = false := by
      rw [List.any_eq_false]
      intro k hk
      simp only [decide_eq_true_eq]
      exact fun hinf => hnk ⟨k, List.mem_append.2 (Or.inl hk), hinf⟩
    have h2 : (english_keywords.any fun k => decide (k <:+: pyLower text)) = false := by
      rw [List.any_eq_false]
      intro k hk
      simp only [decide_eq_true_eq]
      exact fun hinf => hnk ⟨k, List.mem_append.2 (Or.inr hk), hinf⟩
    simp [needs_retrieval, h1, h2, hq]

/-- C3 witness: a trigger phrase fires the gate, a short question-word
question with `?` fires the gate, and a neutral statement does not. -/
theorem c3_witness :
    needs_retrieval true ("какие новости".data) = true ∧
    needs_retrieval true ("кто это?".data) = true ∧
    needs_retrieval true ("это хорошая погода".data) = false := by
  refine ⟨?_, ?_, ?_⟩
  · exact (c3_needs_retrieval_characterization ("какие новости".data)).1
      (by decide)
  · exact (c3_needs_retrieval_characterization ("кто это?".data)).2.1
      (by decide)
  · exact (c3_needs_retrieval_characterization ("это хорошая погода".data)).2.2
      (by decide)

/-- C2: when the gate fires, `generate_with_search` calls the aggregator
with `max_results=3, fetch_content=True`; when that aggregation is
empty, the backend receives the original, unmodified message, history
and system prompt — exactly the call made when the gate does not fire. -/
theorem c2_gate_aggregator_and_fallback :
    ∀ (msg : List Char) (hist : List (List Char × List Char))
      (sys : Option (List Char)) (results : List SearchResult),
      (needs_retrieval true msg = true →
        (generate_with_search msg hist sys true results).searchCall =
          some (msg, 3, true) ∧
        (results = [] →
          (generate_with_search msg hist sys true results).genCall =
            { user_message := msg, conversation_history := hist,
              system_prompt := sys })) ∧
      (needs_retrieval true msg = false →
        (generate_with_search msg hist sys true results).searchCall = none ∧
        (generate_with_search msg hist sys true results).genCall =
          { user_message := msg, conversation_history := hist,
            system_prompt := sys }) := by
  intro msg hist sys results
  constructor
  · intro h
    constructor
    · by_cases hr : results = [] <;> simp [generate_with_search, h, hr]
    · intro hr
      simp [generate_with_search, h, hr]
  · intro h
    simp [generate_with_search, h]

/-- C2 witness: the gate fires on "who won?"; with an empty aggregation
the backend call carries the original message, history and prompt. -/
theorem c2_witness :
    needs_retrieval true ("who won?".data) = true ∧
    (generate_with_search ("who won?".data) [] none true []).searchCall =
      some ("who won?".data, 3, true) ∧
    (generate_with_search ("who won?".data) [] none true []).genCall =
      { user_message := "who won?".data, conversation_history := [],
        system_prompt := none } := by
  refine ⟨by decide, ?_, ?_⟩
  · exact ((c2_gate_aggregator_and_fallback ("who won?".data) [] none []).1
      (by decide)).1
  · exact ((c2_gate_aggregator_and_fallback ("who won?".data) [] none []).1
      (by decide)).2 rfl



theorem searchT_error {q : List Char} {mr : Nat} {iw : Bool}
    {ddgOut : DdgOutcome} {htmlOut : HtmlOutcome} {ruOut enOut : WikiOutcome}
    {e : PyExc} (hd : search_duckduckgo mr ddgOut = .error e) :
    searchT q mr iw ddgOut htmlOut ruOut enOut = ([CallTag.ddg], .error e) := by
  unfold searchT
  rw [hd]

theorem wikiLocales_append (a b : List CallTag) :
    wikiLocales (a ++ b) = wikiLocales a ++ wikiLocales b := by
  simp [wikiLocales]

/-- C1: every ResultSet returned by the aggregator's `search` has length
at most `max_results` and is the truncation, to `max_results`, of the
instant-answer results followed by the HTML-search results followed by
the encyclopedia results (`ru` before `en`), in insertion order with no
re-ranking. -/
theorem c1_resultset_bounded_and_ordered :
    ∀ (q : List Char) (mr : Nat) (iw : Bool) (ddgOut : DdgOutcome)
      (htmlOut : HtmlOutcome) (ruOut enOut : WikiOutcome)
      (rs : List SearchResult),
      (searchT q mr iw ddgOut htmlOut ruOut enOut).2 = .ok rs →
      rs.length ≤ mr ∧
      ∃ ddg hpart w,
        search_duckduckgo mr ddgOut = .ok ddg ∧
        (hpart = [] ∨ search_duckduckgo_html htmlOut = .ok hpart) ∧
        wikiChunk ruOut enOut w ∧
        rs = (ddg ++ hpart ++ w).take mr := by
  intro q mr iw ddgOut htmlOut ruOut enOut rs h
  cases hd : search_duckduckgo mr ddgOut with
  | error e => rw [searchT_error hd] at h; cases h
  | ok ddg =>
    rw [searchT_eq hd] at h
    by_cases hz : ddg.length = 0
    · rw [if_pos hz] at h
      cases hh : search_duckduckgo_html htmlOut with
      | error e => rw [hh] at h; cases h
      | ok hs =>
        rw [hh] at h
        dsimp only at h
        rcases wikiStage_ok h with ⟨w, hc, heq⟩
        subst heq
        exact ⟨List.length_take_le _ _, ddg, hs, w, rfl, Or.inr rfl, hc,
          by simp [List.append_assoc]⟩
    · rw [if_neg hz] at h
      dsimp only at h
      rcases wikiStage_ok h with ⟨w, hc, heq⟩
      subst heq
      exact ⟨List.length_take_le _ _, ddg, [], w, rfl, Or.inl rfl, hc, by simp⟩

/-- C1 witness: a concrete aggregation (202 instant-answer status, empty
HTML page, no encyclopedia hits) returns an empty ResultSet of length at
most 3. -/
theorem c1_witness :
    (searchT ("x".data) 3 true (.resp 202 {}) (.resp 200 []) .noResults
        .noResults).2 = .ok [] ∧
    ([] : List SearchResult).length ≤ 3 := by
  refine ⟨rfl, ?_⟩
  exact (c1_resultset_bounded_and_ordered ("x".data) 3 true (.resp 202 {})
    (.resp 200 []) .noResults .noResults [] rfl).1


theorem wikiStage_locales {q base mr} {ruOut enOut : WikiOutcome}
    {ru en : Option SearchResult}
    (hr : search_wikipedia ("ru".data) ruOut = .ok ru)
    (he : search_wikipedia ("en".data) enOut = .ok en) :
    wikiLocales (wikiStage q mr true base ruOut enOut).1 =
      if base.length < mr then
        if isRussian q then
          Locale.ru ::
            (if (base ++ ru.toList).length < mr then [Locale.en] else [])
        else [Locale.en]
      else [] := by
  unfold wikiStage
  by_cases h1 : base.length < mr
  · simp only [true_and, if_pos h1]
    by_cases h2 : isRussian q
    · rw [if_pos h2, if_pos h2, hr]
      dsimp only
      by_cases h3 : (base ++ ru.toList).length < mr
      · rw [if_pos h3, if_pos h3, he]
        rfl
      · rw [if_neg h3, if_neg h3]
        rfl
    · rw [if_neg h2, if_neg h2, he]
      rfl
  · simp only [true_and, if_neg h1]
    rfl

/-- C6: when the accumulated result count is still under `max_results`,
a Cyrillic-hinted query consults the encyclopedia with locale `ru` first
and locale `en` only if the count including the `ru` hit is still under
`max_results`, while a non-Cyrillic query consults locale `en` only; no
encyclopedia call happens once `max_results` is reached. -/
theorem c6_encyclopedia_locale_policy :
    ∀ (q : List Char) (mr : Nat) (ddgOut : DdgOutcome)
      (htmlOut : HtmlOutcome) (ruOut enOut : WikiOutcome)
      (ddg hs : List SearchResult) (ru en : Option SearchResult)
      (base : List SearchResult),
      search_duckduckgo mr ddgOut = .ok ddg →
      search_duckduckgo_html htmlOut = .ok hs →
      search_wikipedia ("ru".data) ruOut = .ok ru →
      search_wikipedia ("en".data) enOut = .ok en →
      base = (if ddg.length = 0 then ddg ++ hs else ddg) →
      wikiLocales (searchT q mr true ddgOut htmlOut ruOut enOut).1 =
        (if base.length < mr then
          if isRussian q then
            Locale.ru ::
              (if (base ++ ru.toList).length < mr then [Locale.en] else [])
          else [Locale.en]
        else []) := by
  intro q mr ddgOut htmlOut ruOut enOut ddg hs ru en base hd hh hr he hb
  subst hb
  rw [searchT_eq hd]
  by_cases hz : ddg.length = 0
  · simp only [if_pos hz]
    rw [hh]
    dsimp only
    rw [wikiLocales_append]
    have h0 : wikiLocales [CallTag.ddg, CallTag.html] = [] := rfl
    rw [h0, List.nil_append]
    exact wikiStage_locales hr he
  · simp only [if_neg hz]
    rw [wikiLocales_append]
    have h0 : wikiLocales [CallTag.ddg] = [] := rfl
    rw [h0, List.nil_append]
    exact wikiStage_locales hr he

/-- C6 witness: "Москва" (Cyrillic) consults `ru` then `en`; "Paris"
consults `en` only. -/
theorem c6_witness :
    isRussian ("Москва".data) = true ∧ isRussian ("Paris".data) = false ∧
    wikiLocales (searchT ("Москва".data) 3 true (.resp 202 {}) (.resp 200 [])
      .noResults .noResults).1 = [Locale.ru, Locale.en] ∧
    wikiLocales (searchT ("Paris".data) 3 true (.resp 202 {}) (.resp 200 [])
      .noResults .noResults).1 = [Locale.en] := by
  refine ⟨by decide, by decide, ?_, ?_⟩
  · rw [c6_encyclopedia_locale_policy ("Москва".data) 3 (.resp 202 {})
      (.resp 200 []) .noResults .noResults [] [] none none _ rfl rfl rfl rfl
      rfl]
    decide
  · rw [c6_encyclopedia_locale_policy ("Paris".data) 3 (.resp 202 {})
      (.resp 200 []) .noResults .noResults [] [] none none _ rfl rfl rfl rfl
      rfl]
    decide


theorem pyLowerChar_not_cyr_range {c : Char}
    (hc : (0x400 ≤ c.toNat ∧ c.toNat ≤ 0x4FF) → c = 'ё' ∨ c = 'Ё') :
    ¬('а' ≤ pyLowerChar c ∧ pyLowerChar c ≤ 'я') := by
  intro hr
  rw [char_le_iff_toNat_le, char_le_iff_toNat_le] at hr
  have ha : ('а').toNat = 1072 := rfl
  have hy : ('я').toNat = 1103 := rfl
  rw [ha, hy, pyLowerChar_toNat] at hr
  by_cases hblock : 0x400 ≤ c.toNat ∧ c.toNat ≤ 0x4FF
  · rcases hc hblock with rfl | rfl
    · exact absurd hr (by decide)
    · exact absurd hr (by decide)
  · split_ifs at hr with h1 h2 h3 <;> omega

theorem wikiStage_no_ru {q : List Char} {mr : Nat} {iw : Bool}
    {base : List SearchResult} {ruOut enOut : WikiOutcome}
    (hq : isRussian q = false) :
    CallTag.wiki Locale.ru ∉ (wikiStage q mr iw base ruOut enOut).1 := by
  unfold wikiStage
  split_ifs with h1 h2
  · rw [hq] at h2
    cases h2
  · cases he : search_wikipedia ("en".data) enOut with
    | error e => simp
    | ok en => simp
  · simp

theorem no_ru_call {q : List Char} {mr : Nat} {iw : Bool}
    {ddgOut : DdgOutcome} {htmlOut : HtmlOutcome} {ruOut enOut : WikiOutcome}
    (hq : isRussian q = false) :
    CallTag.wiki Locale.ru ∉ (searchT q mr iw ddgOut htmlOut ruOut enOut).1 := by
  cases hd : search_duckduckgo mr ddgOut with
  | error e => rw [searchT_error hd]; simp
  | ok ddg =>
    rw [searchT_eq hd]
    by_cases hz : ddg.length = 0
    · rw [if_pos hz]
      cases hh : search_duckduckgo_html htmlOut with
      | error e => simp
      | ok hs =>
        dsimp only
        intro hmem
        rcases List.mem_append.1 hmem with h | h
        · simp at h
        · exact wikiStage_no_ru hq h
    · rw [if_neg hz]
      intro hmem
      rcases List.mem_append.1 hmem with h | h
      · simp at h
      · exact wikiStage_no_ru hq h

/-- C10: the language hint classifies a query as Cyrillic iff some
character's lowercase form lies in the code-point range `а`–`я`; a query
whose only Cyrillic-block characters are `ё`/`Ё` is therefore treated as
non-Cyrillic and the aggregator never consults the Russian
encyclopedia for it. -/
theorem c10_cyrillic_hint :
    ∀ q : List Char,
      (isRussian q = true ↔
        ∃ c ∈ q, 'а' ≤ pyLowerChar c ∧ pyLowerChar c ≤ 'я') ∧
      ((∀ c ∈ q, (0x400 ≤ c.toNat ∧ c.toNat ≤ 0x4FF) → c = 'ё' ∨ c = 'Ё') →
        isRussian q = false ∧
        ∀ (mr : Nat) (ddgOut : DdgOutcome) (htmlOut : HtmlOutcome)
          (ruOut enOut : WikiOutcome),
          CallTag.wiki Locale.ru ∉
            (searchT q mr true ddgOut htmlOut ruOut enOut).1) := by
  intro q
  constructor
  · simp [isRussian, List.any_eq_true]
  · intro h
    have hF : isRussian q = false := by
      rw [isRussian, List.any_eq_false]
      intro c hc
      simp only [decide_eq_true_eq]
      exact pyLowerChar_not_cyr_range (h c hc)
    exact ⟨hF, fun mr ddgOut htmlOut ruOut enOut => no_ru_call hF⟩

/-- C10 witness: the query "Ё" (whose only Cyrillic letter is `Ё`) is
classified non-Cyrillic and triggers no `ru` encyclopedia call. -/
theorem c10_witness :
    isRussian ("Ё".data) = false ∧
    CallTag.wiki Locale.ru ∉
      (searchT ("Ё".data) 3 true (.resp 202 {}) (.resp 200 [])
        .noResults .noResults).1 := by
  refine ⟨?_, ?_⟩
  · exact ((c10_cyrillic_hint ("Ё".data)).2 (by decide)).1
  · exact ((c10_cyrillic_hint ("Ё".data)).2 (by decide)).2 3 (.resp 202 {})
      (.resp 200 []) .noResults .noResults


/-- C8: for any fetched page whose extracted text has at least 1500
characters (for instance a 10,000-character page), enrichment stores a
`full_content` of exactly 1500 characters (the extractor truncates to
`max_length=1500`) and a snippet equal to the first 500 characters plus
the ellipsis marker, 503 characters in total. -/
theorem c8_content_truncation :
    ∀ (r : SearchResult) (extractor : List Char → FetchOutcome)
      (text : List Char),
      r.url ≠ [] → ¬("wikipedia.org".data <:+: r.url) →
      extractor r.url = .success text → 1500 ≤ text.length →
      enrich_result extractor r =
        .ok ({ r with
                fullContent := some (text.take 1500),
                snippet := text.take 500 ++ "...".data }) ∧
      (text.take 1500).length = 1500 ∧
      (text.take 500 ++ "...".data).length = 503 := by
  intro r extractor text hurl hwiki hex hlen
  have hc : (text.take 1500).length = 1500 := by
    rw [List.length_take]
    omega
  have h500 : (text.take 500).length = 500 := by
    rw [List.length_take]
    omega
  have hne : text.take 1500 ≠ [] := by
    intro h0
    rw [h0] at hc
    cases hc
  refine ⟨?_, hc, by simp [h500]⟩
  unfold enrich_result
  rw [if_neg (not_or.mpr ⟨hurl, hwiki⟩), hex]
  simp only [fetch_url_content]
  rw [if_pos hne, hc]
  rw [if_pos (by omega : 1500 > 500), List.take_take]
  norm_num

/-- C8 witness: a concrete 10,000-character extracted page yields the
1500-character `full_content` and the 500-character-plus-ellipsis
snippet. -/
theorem c8_witness :
    ("http://a".data ≠ ([] : List Char)) ∧
    ¬("wikipedia.org".data <:+: "http://a".data) ∧
    1500 ≤ (List.replicate 10000 'x').length ∧
    enrich_result (fun _ => .success (List.replicate 10000 'x'))
      { title := "t".data, snippet := "s".data, url := "http://a".data,
        source := "a".data } =
      .ok { title := "t".data,
            snippet := (List.replicate 10000 'x').take 500 ++ "...".data,
            url := "http://a".data, source := "a".data,
            fullContent := some ((List.replicate 10000 'x').take 1500) } := by
  refine ⟨by decide, by decide, by rw [List.length_replicate]; omega, ?_⟩
  exact (c8_content_truncation
    { title := "t".data, snippet := "s".data, url := "http://a".data,
      source := "a".data }
    (fun _ => .success (List.replicate 10000 'x'))
    (List.replicate 10000 'x') (by decide) (by decide) rfl
    (by rw [List.length_replicate]; omega)).1


theorem enrich_loop_ok {extractor : List Char → FetchOutcome} :
    ∀ {results out : List SearchResult},
      enrich_loop extractor results = .ok out →
      out.length = results.length ∧
      ∀ i (hi : i < results.length) (ho : i < out.length),
        enrich_result extractor (results.get ⟨i, hi⟩) =
          .ok (out.get ⟨i, ho⟩) := by
  intro results
  induction results with
  | nil =>
    intro out h
    cases h
    exact ⟨rfl, fun i hi => absurd hi (by simp)⟩
  | cons r rs ih =>
    intro out h
    unfold enrich_loop at h
    cases he : enrich_result extractor r with
    | error e => rw [he] at h; cases h
    | ok r2 =>
      rw [he] at h
      cases hl : enrich_loop extractor rs with
      | error e => rw [hl] at h; cases h
      | ok rest =>
        rw [hl] at h
        cases h
        obtain ⟨hlen, hidx⟩ := ih hl
        refine ⟨by simp [hlen], ?_⟩
        intro i hi ho
        cases i with
        | zero => simpa using he
        | succ n =>
          simpa using hidx n (by simpa using hi) (by simpa using ho)

set_option maxRecDepth 40000 in
/-- C7 counterexample.  The claim says (i) on extraction success the
snippet becomes the first 500 characters of the fetched content, and
(ii) on extraction failure the overall call still succeeds with the
result unchanged.  Both fail on the code: (i) for content longer than
500 characters the code appends an ellipsis, so the snippet is not equal
to the first 500 characters; (ii) an extraction failure that raises
(timeout or network error) propagates out of `search_with_content` as a
`NameError`, because `fetch_url_content`'s
`except asyncio.TimeoutError:` clause references the never-imported
`asyncio`. -/
theorem c7_counterexample :
    enrich_result (fun _ => .success (List.replicate 501 'a'))
      { title := "t".data, snippet := "orig".data, url := "http://e".data,
        source := "e".data } =
      .ok { title := "t".data,
            snippet := List.replicate 500 'a' ++ "...".data,
            url := "http://e".data, source := "e".data,
            fullContent := some (List.replicate 501 'a') } ∧
    ((List.replicate 500 'a' ++ "...".data) == List.replicate 500 'a')
      = false ∧
    search_with_content ("q".data) 3 true (.resp 202 {})
      (.resp 200
        [{ title := "t".data, snippet := "orig".data,
           url := "http://e".data, source := "e".data }])
      .noResults .noResults (fun _ => .raised .timeoutError) =
      .error .nameError := by
  refine ⟨by rfl, by decide, by rfl⟩

/-- C7 (amended): when `fetch_content` is set, enrichment is applied
exactly to results with a non-empty, non-`wikipedia.org` url; an
extraction that completes without content (non-200 status or empty
text) leaves the result completely unchanged; a successful extraction
sets `full_content` to the text truncated at 1500 characters and
overwrites the snippet with its first 500 characters, appending an
ellipsis when the content exceeds 500 characters; and when the
enrichment loop completes it returns the same number of results in the
same order, each the enrichment of the corresponding input. -/
theorem c7_enrichment_frame :
    ∀ (extractor : List Char → FetchOutcome) (r : SearchResult),
      ((r.url = [] ∨ ("wikipedia.org".data <:+: r.url)) →
        enrich_result extractor r = .ok r) ∧
      (∀ st, extractor r.url = .badStatus st →
        enrich_result extractor r = .ok r) ∧
      (∀ text, extractor r.url = .success text → text.take 1500 = [] →
        enrich_result extractor r = .ok r) ∧
      (∀ text, ¬(r.url = [] ∨ ("wikipedia.org".data <:+: r.url)) →
        extractor r.url = .success text → text.take 1500 ≠ [] →
        enrich_result extractor r =
          .ok ({ r with
                  fullContent := some (text.take 1500),
                  snippet :=
                    if (text.take 1500).length > 500 then
                      (text.take 1500).take 500 ++ "...".data
                    else text.take 1500 })) ∧
      (∀ (results out : List SearchResult),
        enrich_loop extractor results = .ok out →
        out.length = results.length ∧
        ∀ i (hi : i < results.length) (ho : i < out.length),
          enrich_result extractor (results.get ⟨i, hi⟩) =
            .ok (out.get ⟨i, ho⟩)) := by
  intro extractor r
  refine ⟨?_, ?_, ?_, ?_, ?_⟩
  · intro h
    unfold enrich_result
    rw [if_pos h]
  · intro st hs
    by_cases hcond : r.url = [] ∨ ("wikipedia.org".data <:+: r.url)
    · unfold enrich_result
      rw [if_pos hcond]
    · unfold enrich_result
      rw [if_neg hcond, hs]
      simp [fetch_url_content]
  · intro text hs h0
    by_cases hcond : r.url = [] ∨ ("wikipedia.org".data <:+: r.url)
    · unfold enrich_result
      rw [if_pos hcond]
    · unfold enrich_result
      rw [if_neg hcond, hs]
      simp [fetch_url_content, h0]
  · intro text hcond hs hne
    unfold enrich_result
    rw [if_neg hcond, hs]
    simp [fetch_url_content, hne]
  · intro results out h
    exact enrich_loop_ok h

/-- C7 witness: a successful short extraction rewrites snippet and
`full_content`; a non-200 extraction leaves the result unchanged; a
completed loop preserves count and order. -/
theorem c7_witness :
    enrich_result (fun _ => .success ("abc".data))
      { title := "t".data, snippet := "s".data, url := "http://a".data,
        source := "a".data } =
      .ok { title := "t".data, snippet := "abc".data,
            url := "http://a".data, source := "a".data,
            fullContent := some ("abc".data) } ∧
    enrich_result (fun _ => .badStatus 404)
      { title := "t".data, snippet := "s".data, url := "http://a".data,
        source := "a".data } =
      .ok { title := "t".data, snippet := "s".data, url := "http://a".data,
            source := "a".data } ∧
    ∀ (out : List SearchResult),
      enrich_loop (fun _ => .badStatus 404)
        [{ title := "t".data, snippet := "s".data, url := "http://a".data,
           source := "a".data }] = .ok out →
      out.length = 1 := by
  refine ⟨?_, ?_, ?_⟩
  · have h := (c7_enrichment_frame (fun _ => .success ("abc".data))
      { title := "t".data, snippet := "s".data, url := "http://a".data,
        source := "a".data }).2.2.2.1 ("abc".data) (by decide) rfl (by decide)
    exact h
  · exact (c7_enrichment_frame (fun _ => .badStatus 404)
      { title := "t".data, snippet := "s".data, url := "http://a".data,
        source := "a".data }).2.1 404 rfl
  · intro out h
    exact ((c7_enrichment_frame (fun _ => .badStatus 404)
      { title := "t".data, snippet := "s".data, url := "http://a".data,
        source := "a".data }).2.2.2.2
      [{ title := "t".data, snippet := "s".data, url := "http://a".data,
         source := "a".data }] out h).1


theorem infix_skip (h : List Char) {l t : List Char} (hin : l <:+: t) :
    l <:+: h ++ t :=
  hin.trans (List.suffix_append h t).isInfix

theorem infix_extend (h : List Char) {l t : List Char} (hin : l <:+: t) :
    l <:+: t ++ h :=
  hin.trans (List.prefix_append t h).isInfix

theorem snippet_infix_block (i : Nat) (r : SearchResult) :
    r.snippet <:+: resultBlock i r := by
  unfold resultBlock
  apply infix_extend
  apply infix_extend
  apply infix_extend
  exact (List.suffix_append _ _).isInfix

theorem fragment_infix_block (i : Nat) (r : SearchResult) (fc : List Char)
    (hfc : r.fullContent = some fc) (hne : fc ≠ []) :
    fc.take 800 <:+: resultBlock i r := by
  unfold resultBlock
  rw [hfc]
  simp only
  rw [if_pos hne]
  apply infix_extend
  apply infix_skip
  apply infix_extend
  exact (List.suffix_append _ _).isInfix

theorem block_mem {r : SearchResult} :
    ∀ {results : List SearchResult} (j : Nat), r ∈ results →
      ∃ i, resultBlock i r ∈ resultBlocks j results := by
  intro results
  induction results with
  | nil => intro j h; cases h
  | cons a as ih =>
    intro j h
    rcases List.mem_cons.1 h with rfl | h2
    · exact ⟨j, by simp [resultBlocks]⟩
    · rcases ih (j + 1) h2 with ⟨i, hi⟩
      exact ⟨i, by simp [resultBlocks, hi]⟩

set_option maxRecDepth 40000 in
/-- C9 counterexample.  The claim says the formatter renders each
result's description preferring `full_content` when present and using
`snippet` otherwise — i.e. `full_content` supersedes `snippet` in the
formatted output.  The code instead always renders the snippet line and
only additionally appends the `full_content` fragment: for a result
whose `full_content` is present and non-empty, the snippet text (the
string "zq", which occurs in no other input) is still an infix of the
formatted output. -/
theorem c9_counterexample :
    ({ title := "t".data, snippet := "zq".data, url := [],
       source := "s".data,
       fullContent := some ("FULL".data) } : SearchResult).fullContent =
      some ("FULL".data) ∧
    ("FULL".data == ([] : List Char)) = false ∧
    "zq".data <:+:
      format_search_results
        [{ title := "t".data, snippet := "zq".data, url := [],
           source := "s".data, fullContent := some ("FULL".data) }]
        ("q".data) := by
  refine ⟨rfl, by decide, by decide⟩

/-- C9 (amended): for every non-empty ResultSet the formatter always
renders each result's `snippet` as the description, and when
`full_content` is present and non-empty it additionally renders the
first 800 characters of `full_content` under a "fragment" marker; both
therefore appear in the formatted output. -/
theorem c9_formatter_renders_both :
    ∀ (results : List SearchResult) (query : List Char),
      results ≠ [] →
      ∀ r, r ∈ results →
        r.snippet <:+: format_search_results results query ∧
        ∀ fc, r.fullContent = some fc → fc ≠ [] →
          fc.take 800 <:+: format_search_results results query := by
  intro results query hne r hr
  rcases block_mem 1 hr with ⟨i, hmem⟩
  have hbin : resultBlock i r <:+: (resultBlocks 1 results).flatten :=
    List.infix_of_mem_flatten hmem
  have hfmt : (resultBlocks 1 results).flatten <:+:
      format_search_results results query := by
    unfold format_search_results
    rw [if_neg hne]
    apply infix_extend
    apply infix_extend
    apply infix_extend
    exact (List.suffix_append _ _).isInfix
  constructor
  · exact (snippet_infix_block i r).trans (hbin.trans hfmt)
  · intro fc hfc hfcne
    exact (fragment_infix_block i r fc hfc hfcne).trans (hbin.trans hfmt)

set_option maxRecDepth 40000 in
/-- C9 witness: on a concrete singleton ResultSet with `full_content`
present, both the snippet and the truncated `full_content` occur in the
formatted output. -/
theorem c9_witness :
    ([{ title := "t".data, snippet := "zs".data, url := [],
        source := "s".data, fullContent := some ("FULLC".data) }] ≠
      ([] : List SearchResult)) ∧
    "zs".data <:+:
      format_search_results
        [{ title := "t".data, snippet := "zs".data, url := [],
           source := "s".data, fullContent := some ("FULLC".data) }]
        ("q".data) ∧
    ("FULLC".data).take 800 <:+:
      format_search_results
        [{ title := "t".data, snippet := "zs".data, url := [],
           source := "s".data, fullContent := some ("FULLC".data) }]
        ("q".data) := by
  refine ⟨by decide, ?_, ?_⟩
  · exact (c9_formatter_renders_both
      [{ title := "t".data, snippet := "zs".data, url := [],
         source := "s".data, fullContent := some ("FULLC".data) }]
      ("q".data) (by decide) _ (List.mem_singleton.mpr rfl)).1
  · exact (c9_formatter_renders_both
      [{ title := "t".data, snippet := "zs".data, url := [],
         source := "s".data, fullContent := some ("FULLC".data) }]
      ("q".data) (by decide) _ (List.mem_singleton.mpr rfl)).2
      ("FULLC".data) rfl (by decide)

end WebSearch
